import Mathlib

/-!
Shallow embedding of the Neutra client-side music-search repository
(src/js/search.js and the data-loading / formatting parts of src/js/app.js).

Strings are modelled as Lean `String` (lists of characters); the ASCII
`Char.toLower` stands for JavaScript `toLowerCase`, `Char.isWhitespace`
trimming for `String.prototype.trim`.  JavaScript's dynamic record fields
(`catalog.tracks` possibly missing or not an array, `track.album` possibly
absent, `options.limit` possibly absent) are modelled with `Option`.
`Array.prototype.sort` with the comparator `(a, b) => b.score - a.score`
is a stable descending sort, modelled by a stable insertion sort.
-/

namespace Neutra

/-- Lower-case a string character by character, as `toLowerCase` does. -/
def jsLower (s : String) : String := ⟨s.toList.map Char.toLower⟩

/-- Trim leading and trailing whitespace, as `String.prototype.trim` does. -/
def jsTrim (s : String) : String :=
  ⟨((s.toList.dropWhile Char.isWhitespace).reverse.dropWhile Char.isWhitespace).reverse⟩

/-- Boolean test that `sub` occurs contiguously inside `s`;
this is `haystack.includes(needle)` on lists of characters. -/
def hasSeq : List Char → List Char → Bool
  | s, sub =>
    sub.isPrefixOf s ||
      match s with
      | [] => false
      | _ :: rest => hasSeq rest sub

/-- JavaScript `s.includes(sub)`. -/
def jsIncludes (s sub : String) : Bool := hasSeq s.toList sub.toList

/-- JavaScript `s.startsWith(sub)`. -/
def jsStartsWith (s sub : String) : Bool := sub.toList.isPrefixOf s.toList

/-! ## Data model (spec section 3) -/

/-- A catalog track record (only the fields the search module touches). -/
structure Track where
  id : String
  title : String
  artist : String
  album : Option String := none
  duration : Option Nat := none

deriving instance DecidableEq for Track

/-- A catalog album record. -/
structure Album where
  id : String
  title : String
  artist : String

deriving instance DecidableEq for Album

/-- The catalog; `none` models a missing or non-array `tracks`/`albums`
field (the code guards with `catalog.tracks && Array.isArray(...)`). -/
structure Catalog where
  tracks : Option (List Track) := none
  albums : Option (List Album) := none

deriving instance DecidableEq for Catalog

/-- An index entry for a track: lower-cased projections plus a reference to
the original record.  `score` models the `match.score` property that
`search` writes onto the entry (absent until a search scores it). -/
structure TrackEntry where
  id : String
  title : String
  artist : String
  album : String
  original : Track
  score : Option Int := none

deriving instance DecidableEq for TrackEntry

/-- An index entry for an album. -/
structure AlbumEntry where
  id : String
  title : String
  artist : String
  original : Album
  score : Option Int := none

deriving instance DecidableEq for AlbumEntry

/-- The search index built by `buildIndex` (with `artists` already
materialized from the insertion-ordered `Set` to a sequence). -/
structure SearchIndex where
  tracks : List TrackEntry
  albums : List AlbumEntry
  artists : List String

deriving instance DecidableEq for SearchIndex

/-- Options bag passed to `search` / `debouncedSearch`. -/
structure SearchOptions where
  limit : Option Nat := none
  delay : Option Nat := none

deriving instance DecidableEq for SearchOptions

/-- The result record returned by `search`. -/
structure SearchResults where
  tracks : List Track
  albums : List Album
  artists : List String

deriving instance DecidableEq for SearchResults

/-! ## buildIndex (search.js lines 16-51) -/

/-- The entry pushed onto `searchIndex.tracks` for one track:
`{id, title: lower, artist: lower, album: (album || '').lower, original}`. -/
def indexTrack (t : Track) : TrackEntry :=
  { id := t.id
    title := jsLower t.title
    artist := jsLower t.artist
    album := jsLower (t.album.getD "")
    original := t }

/-- The entry pushed onto `searchIndex.albums` for one album. -/
def indexAlbum (a : Album) : AlbumEntry :=
  { id := a.id
    title := jsLower a.title
    artist := jsLower a.artist
    original := a }

/-- One `Set.add`: a JavaScript `Set` keeps insertion order and ignores
re-insertions, so adding to the materialized sequence appends the name
only when it is not already present. -/
def addArtist (acc : List String) (a : String) : List String :=
  if a ∈ acc then acc else acc ++ [a]

/-- The artist names encountered while indexing, tracks first then albums,
in catalog order (with duplicates still present). -/
def allArtists (c : Catalog) : List String :=
  (c.tracks.getD []).map Track.artist ++ (c.albums.getD []).map Album.artist

/-- `Search.buildIndex(catalog)`: lower-cased track and album projections,
plus the artist names deduplicated in first-encounter order. -/
def buildIndex (c : Catalog) : SearchIndex :=
  { tracks := (c.tracks.getD []).map indexTrack
    albums := (c.albums.getD []).map indexAlbum
    artists := (allArtists c).foldl addArtist [] }

/-! ## search (search.js lines 59-120) -/

/-- `options.limit || 50`: a missing limit, and also the falsy limit `0`,
fall back to the default of 50. -/
def effLimit (o : SearchOptions) : Nat :=
  match o.limit with
  | none => 50
  | some n => if n = 0 then 50 else n

/-- Track filter predicate: title, artist or album contains the query. -/
def trackMatchPred (q : String) (e : TrackEntry) : Bool :=
  jsIncludes e.title q || jsIncludes e.artist q || jsIncludes e.album q

/-- Album filter predicate: title or artist contains the query. -/
def albumMatchPred (q : String) (e : AlbumEntry) : Bool :=
  jsIncludes e.title q || jsIncludes e.artist q

/-- Track scoring (search.js lines 84-92): title starts-with +100 else
contains +50; artist starts-with +80 else contains +40; album contains
+20. -/
def scoreTrack (q : String) (e : TrackEntry) : Int :=
  (if jsStartsWith e.title q then 100
   else if jsIncludes e.title q then 50 else 0)
  + (if jsStartsWith e.artist q then 80
     else if jsIncludes e.artist q then 40 else 0)
  + (if jsIncludes e.album q then 20 else 0)

/-- Album scoring (search.js lines 102-108): title starts-with +100 else
contains +50; artist starts-with +80 else contains +40. -/
def scoreAlbum (q : String) (e : AlbumEntry) : Int :=
  (if jsStartsWith e.title q then 100
   else if jsIncludes e.title q then 50 else 0)
  + (if jsStartsWith e.artist q then 80
     else if jsIncludes e.artist q then 40 else 0)

/-- Stable insertion of `x` into a descending-by-key list: `x` is placed
before the first element whose key is not larger, so among equal keys the
earlier element of the input stays first. -/
def insDesc (key : α → Int) (x : α) : List α → List α
  | [] => [x]
  | y :: ys => if key y ≤ key x then x :: y :: ys else y :: insDesc key x ys

/-- Stable sort in descending key order; this is what
`arr.sort((a, b) => b.score - a.score)` does (ECMAScript sorts stably). -/
def sortDesc (key : α → Int) : List α → List α
  | [] => []
  | x :: xs => insDesc key x (sortDesc key xs)

/-- The scored and sorted track matches for an already-normalized query. -/
def trackMatchesSorted (idx : SearchIndex) (q : String) : List TrackEntry :=
  sortDesc (scoreTrack q) (idx.tracks.filter (trackMatchPred q))

/-- The scored and sorted album matches for an already-normalized query. -/
def albumMatchesSorted (idx : SearchIndex) (q : String) : List AlbumEntry :=
  sortDesc (scoreAlbum q) (idx.albums.filter (albumMatchPred q))

/-- The empty result record. -/
def emptyResults : SearchResults := { tracks := [], albums := [], artists := [] }

/-- `Search.search(query, options)`.  The first argument models the
module-level `searchIndex` variable (`none` before any `buildIndex`). -/
def search (idx : Option SearchIndex) (query : String) (o : SearchOptions) :
    SearchResults :=
  match idx with
  | none => emptyResults
  | some index =>
    let q := jsTrim (jsLower query)
    if q = "" then emptyResults
    else
      let limit := effLimit o
      { tracks := ((trackMatchesSorted index q).take limit).map TrackEntry.original
        albums := ((albumMatchesSorted index q).take limit).map AlbumEntry.original
        artists := (index.artists.filter (fun a => jsIncludes (jsLower a) q)).take 10 }

/-- The state of the module's index entries after a search: `search`
assigns `match.score = score` on every entry that passed the filter, and
leaves every other entry (and every `original` record) untouched. -/
def indexAfterSearch (idx : SearchIndex) (query : String) : SearchIndex :=
  let q := jsTrim (jsLower query)
  if q = "" then idx
  else
    { idx with
      tracks := idx.tracks.map fun e =>
        if trackMatchPred q e then { e with score := some (scoreTrack q e) } else e
      albums := idx.albums.map fun e =>
        if albumMatchPred q e then { e with score := some (scoreAlbum q e) } else e }

/-! ## Debounce (search.js lines 128-141)

The timer is modelled as a single pending slot: `debouncedSearch` first
runs `clearTimeout` (discarding any pending invocation) and then stores
the new one; the timer elapsing (`fire`) runs the stored invocation and
empties the slot; `cancelSearch` empties the slot without running it.
The callback invocation is recorded as the `(query, options)` pair the
scheduled closure would pass to `search`. -/

/-- The module constant `DEBOUNCE_DELAY`. -/
def DEBOUNCE_DELAY : Nat := 200

/-- `options.delay || DEBOUNCE_DELAY` (a falsy delay of 0 also defaults). -/
def effDelay (o : SearchOptions) : Nat :=
  match o.delay with
  | none => DEBOUNCE_DELAY
  | some n => if n = 0 then DEBOUNCE_DELAY else n

/-- Events acting on the debounce slot: a `debouncedSearch` call, the
scheduled timeout elapsing, or an explicit `cancelSearch`. -/
inductive DebEvent where
  | call (query : String) (options : SearchOptions)
  | fire
  | cancel

deriving instance DecidableEq for DebEvent

/-- One step of the debounce state machine; the second component lists
the callback invocations this event performs (empty or a singleton). -/
def debStep (pending : Option (String × SearchOptions)) :
    DebEvent → Option (String × SearchOptions) × List (String × SearchOptions)
  | .call q o => (some (q, o), [])
  | .fire =>
    match pending with
    | some p => (none, [p])
    | none => (none, [])
  | .cancel => (none, [])

/-- Run a sequence of debounce events, collecting the invocations. -/
def debRun (pending : Option (String × SearchOptions)) :
    List DebEvent → Option (String × SearchOptions) × List (String × SearchOptions)
  | [] => (pending, [])
  | e :: es =>
    let r := debStep pending e
    let r2 := debRun r.1 es
    (r2.1, r.2 ++ r2.2)

/-! ## highlight / escapeHtml (search.js lines 149-175) -/

/-- HTML-escaping of one character, as serializing a text node does:
`&` becomes `&amp;`, `<` becomes `&lt;`, `>` becomes `&gt;`. -/
def escChar (c : Char) : List Char :=
  if c = '&' then "&amp;".toList
  else if c = '<' then "&lt;".toList
  else if c = '>' then "&gt;".toList
  else [c]

/-- `escapeHtml(text)`: assign to a div's `textContent`, read `innerHTML`. -/
def escapeHtml (s : String) : String := ⟨(s.toList.map escChar).flatten⟩

/-- The characters of the `<mark>` open tag. -/
def openMark : List Char := "<mark>".toList

/-- The characters of the `</mark>` close tag. -/
def closeMark : List Char := "</mark>".toList

/-- Global case-insensitive replacement of the literal lower-cased pattern
`q` by `<mark>$1</mark>`: scan left to right; at a match, wrap the matched
slice (original case) and resume after it; the regex-escaping of the
pattern makes the regex match exactly the literal `q`, so it is absorbed
here.  An empty pattern matches at every position and at the end, as the
empty regex does. -/
def markOcc (q : List Char) : List Char → List Char
  | [] => if q = [] then openMark ++ closeMark else []
  | c :: rest =>
    if h : q ≠ [] ∧ ((c :: rest).take q.length).map Char.toLower = q then
      openMark ++ (c :: rest).take q.length ++ closeMark
        ++ markOcc q ((c :: rest).drop q.length)
    else if q = [] then
      openMark ++ closeMark ++ c :: markOcc q rest
    else
      c :: markOcc q rest
termination_by s => s.length
decreasing_by
  · have hq : 0 < q.length := List.length_pos.mpr h.1
    simp only [List.length_drop, List.length_cons]
    omega
  · simp
  · simp

/-- The number of (leftmost, non-overlapping) case-insensitive occurrences
of the non-empty lower-cased pattern `q`, counted by the same scan. -/
def countOcc (q : List Char) : List Char → Nat
  | [] => 0
  | c :: rest =>
    if h : q ≠ [] ∧ ((c :: rest).take q.length).map Char.toLower = q then
      1 + countOcc q ((c :: rest).drop q.length)
    else
      countOcc q rest
termination_by s => s.length
decreasing_by
  · have hq : 0 < q.length := List.length_pos.mpr h.1
    simp only [List.length_drop, List.length_cons]
    omega
  · simp

/-- `Search.highlight(text, query)`: empty query returns the escaped text;
otherwise every case-insensitive occurrence of the trimmed lower-cased
query in the escaped text is wrapped in `<mark>...</mark>`. -/
def highlight (text query : String) : String :=
  if query = "" then escapeHtml text
  else
    let q := jsLower (jsTrim query)
    ⟨markOcc q.toList (escapeHtml text).toList⟩

/-! ## app.js: formatDuration and init -/

/-- `padStart(2, '0')`. -/
def padStart2 (s : String) : String :=
  if s.length < 2 then ⟨List.replicate (2 - s.length) '0' ++ s.toList⟩ else s

/-- `formatDuration(seconds)` (app.js lines 133-138), with `none`
modelling an `undefined` or `NaN` argument and `some 0` the falsy 0;
durations are whole seconds in the catalog, so seconds are a `Nat`. -/
def formatDuration (seconds : Option Nat) : String :=
  match seconds with
  | none => "0:00"
  | some n =>
    if n = 0 then "0:00"
    else toString (n / 60) ++ ":" ++ padStart2 (toString (n % 60))

/-- The links payload (id to platform-to-URL mappings); its contents are
opaque to `init`, which only stores and caches it. -/
structure Links where
  trackLinks : List (String × List (String × String)) := []
  albumLinks : List (String × List (String × String)) := []

deriving instance DecidableEq for Links

/-- What one run of `init()` on the fresh-fetch path leaves behind. -/
structure InitOutcome where
  catalog : Option Catalog
  links : Option Links
  cacheWrite : Option (Catalog × Links)
  indexBuilt : Bool
  initialized : Bool
  success : Bool

deriving instance DecidableEq for InitOutcome

/-- `init()` (app.js lines 43-75) on the no-cache path, as a function of
the two fetch outcomes (`none` models a failed fetch, which `loadJSON`
turns into `null`): both results are assigned to module state, the pair
is cached only when both are present, the index is built when the catalog
is present, `isInitialized` is set, and the returned value is
`catalog !== null`. -/
def initFresh (catalogData : Option Catalog) (linksData : Option Links) :
    InitOutcome :=
  { catalog := catalogData
    links := linksData
    cacheWrite :=
      match catalogData, linksData with
      | some c, some l => some (c, l)
      | _, _ => none
    indexBuilt := catalogData.isSome
    initialized := true
    success := catalogData.isSome }

/-! ## First-encounter deduplication, from the specification's words:
the sequence of unique artist names in insertion order of first
encounter, duplicates collapsed. -/

/-- Keep the first occurrence of each name, in order of first encounter. -/
def firstEncounter : List String → List String
  | [] => []
  | a :: rest => a :: firstEncounter (rest.filter (fun b => b ≠ a))
termination_by l => l.length
decreasing_by
  exact Nat.lt_succ_of_le (List.length_filter_le _ _)

/-! ## Concrete fixtures used by scenario conjuncts and witnesses -/

/-- The track of the specification's worked scenario. -/
def tJane : Track :=
  { id := "1", title := "Midnight Run", artist := "Jane Doe", duration := some 125 }

/-- The catalog of the specification's worked scenario. -/
def cJane : Catalog := { tracks := some [tJane], albums := some [] }

/-- A one-track catalog whose track title is `"a"`. -/
def tOne : Track := { id := "t", title := "a", artist := "b" }

/-- The catalog holding only `tOne`. -/
def cOne : Catalog := { tracks := some [tOne], albums := some [] }

/-- A track whose title contains `"run"` only as an inner substring. -/
def tRunSub : Track := { id := "B", title := "Overrun", artist := "X" }

/-- A track whose title starts with `"run"`. -/
def tRunPre : Track := { id := "A", title := "Running Man", artist := "X" }

/-- A catalog listing the substring-only match before the prefix match,
so that ranking has to reorder them. -/
def cRun : Catalog := { tracks := some [tRunSub, tRunPre], albums := some [] }

/-- The n-th of a family of tracks that all match the query `"a"` by
title with the same score. -/
def mkT (n : Nat) : Track := { id := toString n, title := "a", artist := "b" }

/-- A catalog with 51 identical-scoring matches for `"a"`: one more than
the default result limit of 50. -/
def c51 : Catalog := { tracks := some ((List.range 51).map mkT), albums := some [] }

end Neutra

namespace Neutra

/-! ## Helper lemmas about the stable descending sort -/

theorem insDesc_perm (key : α → Int) (x : α) (l : List α) :
    (insDesc key x l).Perm (x :: l) := by
  induction l with
  | nil => exact List.Perm.refl _
  | cons y ys ih =>
    by_cases h : key y ≤ key x
    · simp [insDesc, h]
    · simp only [insDesc, if_neg h]
      exact (ih.cons y).trans (List.Perm.swap x y ys)

theorem sortDesc_perm (key : α → Int) (l : List α) : (sortDesc key l).Perm l := by
  induction l with
  | nil => exact List.Perm.refl _
  | cons x xs ih =>
    exact (insDesc_perm key x (sortDesc key xs)).trans (ih.cons x)

theorem insDesc_pairwise (key : α → Int) (x : α) (l : List α)
    (h : l.Pairwise (fun a b => key b ≤ key a)) :
    (insDesc key x l).Pairwise (fun a b => key b ≤ key a) := by
  induction l with
  | nil => simp [insDesc]
  | cons y ys ih =>
    rcases List.pairwise_cons.mp h with ⟨hy, hys⟩
    by_cases hk : key y ≤ key x
    · simp only [insDesc, if_pos hk]
      refine List.pairwise_cons.mpr ⟨?_, h⟩
      intro z hz
      rcases List.mem_cons.mp hz with rfl | hz2
      · exact hk
      · exact le_trans (hy z hz2) hk
    · simp only [insDesc, if_neg hk]
      refine List.pairwise_cons.mpr ⟨?_, ih hys⟩
      intro z hz
      have hz3 : z ∈ x :: ys := (insDesc_perm key x ys).mem_iff.mp hz
      rcases List.mem_cons.mp hz3 with rfl | hz4
      · exact le_of_lt (lt_of_not_le hk)
      · exact hy z hz4

theorem sortDesc_pairwise (key : α → Int) (l : List α) :
    (sortDesc key l).Pairwise (fun a b => key b ≤ key a) := by
  induction l with
  | nil => simp [sortDesc]
  | cons x xs ih => exact insDesc_pairwise key x _ ih

theorem pairwise_of_split {R : α → α → Prop} {l1 l2 l3 : List α} {x y : α}
    (h : (l1 ++ x :: l2 ++ y :: l3).Pairwise R) : R x y := by
  have h1 : List.Sublist [y] (l2 ++ y :: l3) :=
    ((List.nil_sublist l3).cons₂ y).trans (List.sublist_append_right l2 (y :: l3))
  have h2 : List.Sublist [x, y] (x :: l2 ++ y :: l3) := h1.cons₂ x
  have h3 : List.Sublist [x, y] (l1 ++ x :: l2 ++ y :: l3) := by
    have h4 := h2.trans (List.sublist_append_right l1 (x :: l2 ++ y :: l3))
    simp only [List.cons_append, List.append_assoc] at h4 ⊢
    exact h4
  have hp : ([x, y]).Pairwise R := h.sublist h3
  exact (List.pairwise_cons.mp hp).1 y (List.mem_singleton.mpr rfl)

/-! ## Claim C2 -/

/-- C2: before any index is built `search` returns the empty result
record; so does any query that is empty after lower-casing and trimming;
in particular `buildIndex` followed by `search ""` returns empty tracks,
albums and artists.  `search` is a total function on these inputs, so it
cannot fail. -/
theorem c2_search_empty_cases :
    (∀ (query : String) (o : SearchOptions), search none query o = emptyResults)
    ∧ (∀ (idx : SearchIndex) (query : String) (o : SearchOptions),
        jsTrim (jsLower query) = "" → search (some idx) query o = emptyResults)
    ∧ (∀ (c : Catalog) (o : SearchOptions),
        search (some (buildIndex c)) "" o = emptyResults) := by
  refine ⟨fun query o => rfl, fun idx query o h => ?_, fun c o => rfl⟩
  simp only [search, h, if_pos]

/-- Witness for C2: the whitespace query normalizes to the empty string
and its search on a freshly built index returns the empty results. -/
theorem c2_witness :
    search (some (buildIndex cJane)) "  " { limit := some 3 } = emptyResults :=
  c2_search_empty_cases.2.1 (buildIndex cJane) "  " { limit := some 3 } (by decide)

/-! ## Claim C1 -/

/-- C1 as stated is false: under the listed weights a track whose
lower-cased title, artist and album all start with the query scores
100 + 80 + 20 = 200, exceeding the claimed maximum of 170, and an album
whose title and artist both start with the query scores 100 + 80 = 180,
exceeding the claimed maximum of 120. -/
theorem c1_counterexample :
    trackMatchPred "ab"
      (indexTrack { id := "x", title := "ab", artist := "ab", album := some "ab" }) = true
    ∧ scoreTrack "ab"
        (indexTrack { id := "x", title := "ab", artist := "ab", album := some "ab" }) = 200
    ∧ ¬(scoreTrack "ab"
        (indexTrack { id := "x", title := "ab", artist := "ab", album := some "ab" }) ≤ 170)
    ∧ albumMatchPred "ab" (indexAlbum { id := "y", title := "ab", artist := "ab" }) = true
    ∧ scoreAlbum "ab" (indexAlbum { id := "y", title := "ab", artist := "ab" }) = 180
    ∧ ¬(scoreAlbum "ab" (indexAlbum { id := "y", title := "ab", artist := "ab" }) ≤ 120) := by
  decide

/-- C1 amended: the weights are as claimed (title prefix +100 else
substring +50, artist prefix +80 else substring +40, album substring +20
for tracks only), but the maximum possible track score is 200 and the
maximum possible album score is 180, both attained; the specification's
scenario holds: on the Jane Doe catalog, `search "mid"` returns the track
as a title-prefix match with score 100, `search "doe"` returns it as an
artist-substring match with score 40, and `search "zzz"` finds nothing. -/
theorem c1_scoring_weights :
    (∀ (q : String) (e : TrackEntry), scoreTrack q e ≤ 200)
    ∧ (∀ (q : String) (e : AlbumEntry), scoreAlbum q e ≤ 180)
    ∧ (search (some (buildIndex cJane)) "mid" {}).tracks = [tJane]
    ∧ scoreTrack (jsTrim (jsLower "mid")) (indexTrack tJane) = 100
    ∧ (search (some (buildIndex cJane)) "doe" {}).tracks = [tJane]
    ∧ scoreTrack (jsTrim (jsLower "doe")) (indexTrack tJane) = 40
    ∧ (search (some (buildIndex cJane)) "zzz" {}).tracks = [] := by
  refine ⟨fun q e => ?_, fun q e => ?_, by decide, by decide, by decide, by decide, by decide⟩
  · unfold scoreTrack
    split_ifs <;> norm_num
  · unfold scoreAlbum
    split_ifs <;> norm_num

/-! ## Claim C3 -/

/-- C3 as stated is false for the options value `{limit: 0}`: `0` is
falsy, so `options.limit || 50` replaces the requested limit 0 by 50 and
a search can return more entries than the requested limit. -/
theorem c3_counterexample :
    (search (some (buildIndex cOne)) "a" { limit := some 0 }).tracks.length = 1
    ∧ ¬((search (some (buildIndex cOne)) "a" { limit := some 0 }).tracks.length ≤ 0) := by
  decide

/-- C3 amended: the tracks and albums sequences each have length at most
the effective limit — the requested limit when it is positive, and 50
when no limit option is given or the requested limit is the falsy 0 —
and the artists sequence has length at most 10. -/
theorem c3_result_lengths :
    (∀ (idx : Option SearchIndex) (query : String) (o : SearchOptions),
      (search idx query o).tracks.length ≤ effLimit o
      ∧ (search idx query o).albums.length ≤ effLimit o
      ∧ (search idx query o).artists.length ≤ 10)
    ∧ (∀ o : SearchOptions, o.limit = none → effLimit o = 50)
    ∧ (∀ (o : SearchOptions) (n : Nat), o.limit = some n → 0 < n → effLimit o = n) := by
  refine ⟨fun idx query o => ?_, fun o h => by simp [effLimit, h],
    fun o n h hn => by simp [effLimit, h, Nat.pos_iff_ne_zero.mp hn]⟩
  cases idx with
  | none =>
    simp [search, emptyResults]
  | some index =>
    by_cases h : jsTrim (jsLower query) = ""
    · simp [search, h, emptyResults]
    · simp only [search, if_neg h]
      refine ⟨?_, ?_, ?_⟩
      · simp only [List.length_map, List.length_take]
        exact min_le_left _ _
      · simp only [List.length_map, List.length_take]
        exact min_le_left _ _
      · simp only [List.length_take]
        exact min_le_left _ _

/-- Witness for C3: a request with a positive limit of 1 on a two-match
catalog comes back with exactly at most one track. -/
theorem c3_witness :
    (search (some (buildIndex cRun)) "run" { limit := some 1 }).tracks.length ≤ 1 := by
  have h := (c3_result_lengths.1 (some (buildIndex cRun)) "run" { limit := some 1 }).1
  have he : effLimit { limit := some 1 } = 1 :=
    c3_result_lengths.2.2 { limit := some 1 } 1 rfl (by norm_num)
  rw [he] at h
  exact h

/-! ## Claim C9 -/

/-- C9: `formatDuration` sends the absent or not-a-number input to
`"0:00"`, 0 seconds to `"0:00"`, 125 seconds to `"2:05"`, and in general
a positive whole number of seconds to the whole minutes, a colon, and the
remaining seconds padded to two digits. -/
theorem c9_formatDuration :
    formatDuration none = "0:00"
    ∧ formatDuration (some 0) = "0:00"
    ∧ formatDuration (some 125) = "2:05"
    ∧ (∀ n : Nat, 0 < n →
        formatDuration (some n)
          = toString (n / 60) ++ ":" ++ padStart2 (toString (n % 60))) := by
  refine ⟨rfl, rfl, by decide, fun n hn => ?_⟩
  simp [formatDuration, Nat.pos_iff_ne_zero.mp hn]

/-- Witness for C9: 61 seconds formats as one minute and one padded
second. -/
theorem c9_witness : formatDuration (some 61) = "1:01" := by
  have h := c9_formatDuration.2.2.2 61 (by norm_num)
  rw [h]
  decide

/-! ## Claim C7 -/

/-- C7 as stated is false: when the catalog fetch succeeds and the links
fetch fails, `init` still returns `catalog !== null`, i.e. `true`, so
overall success is reported without both files having loaded (the cache,
however, is indeed not written). -/
theorem c7_counterexample :
    (initFresh (some cJane) none).success = true
    ∧ (initFresh (some cJane) none).links = none
    ∧ (initFresh (some cJane) none).cacheWrite = none := by
  decide

/-- C7 amended: `init` reports success precisely when the catalog loaded,
regardless of the links; the catalog/links pair is cached exactly when
both loaded; whichever of the two loaded is assigned to module state, the
index is built exactly when the catalog loaded, and initialization always
completes. -/
theorem c7_init_outcome :
    ∀ (co : Option Catalog) (lo : Option Links),
      ((initFresh co lo).success = true ↔ co.isSome = true)
      ∧ ((initFresh co lo).cacheWrite.isSome = true ↔ (co.isSome = true ∧ lo.isSome = true))
      ∧ (∀ (c : Catalog) (l : Links),
          co = some c → lo = some l → (initFresh co lo).cacheWrite = some (c, l))
      ∧ (initFresh co lo).catalog = co
      ∧ (initFresh co lo).links = lo
      ∧ (initFresh co lo).indexBuilt = co.isSome
      ∧ (initFresh co lo).initialized = true := by
  intro co lo
  cases co <;> cases lo <;> simp [initFresh]

/-- Witness for C7: with both fetches succeeding, the loaded pair is
cached. -/
theorem c7_witness :
    (initFresh (some cJane) (some {})).cacheWrite = some (cJane, {}) :=
  (c7_init_outcome (some cJane) (some {})).2.2.1 cJane {} rfl rfl

/-! ## Helper lemmas about the debounce state machine -/

theorem debRun_cons (st : Option (String × SearchOptions)) (e : DebEvent)
    (es : List DebEvent) :
    debRun st (e :: es)
      = ((debRun (debStep st e).1 es).1,
         (debStep st e).2 ++ (debRun (debStep st e).1 es).2) := rfl

theorem debRun_append (st : Option (String × SearchOptions)) (l1 l2 : List DebEvent) :
    debRun st (l1 ++ l2)
      = ((debRun (debRun st l1).1 l2).1,
         (debRun st l1).2 ++ (debRun (debRun st l1).1 l2).2) := by
  induction l1 generalizing st with
  | nil => simp [debRun]
  | cons e es ih =>
    rw [List.cons_append, debRun_cons, debRun_cons]
    rw [ih (debStep st e).1]
    simp [List.append_assoc]

theorem debRun_calls (c0 : String × SearchOptions) (l : List (String × SearchOptions)) :
    ∀ st, debRun st ((c0 :: l).map (fun p => DebEvent.call p.1 p.2))
      = (some ((c0 :: l).getLast (List.cons_ne_nil c0 l)), []) := by
  induction l generalizing c0 with
  | nil =>
    intro st
    simp [debRun, debStep, List.getLast]
  | cons d ds ih =>
    intro st
    rw [List.map_cons, debRun_cons]
    simp only [debStep]
    rw [ih d (some (c0.1, c0.2))]
    simp [List.getLast_cons]

/-! ## Claim C6 -/

/-- C6: running any non-empty burst of `debouncedSearch` calls within one
delay window (no timer firing in between) leaves exactly one pending
invocation — the last call's query and options — so when the timer then
fires, the search callback runs exactly once, with those arguments; if
`cancelSearch` intervenes instead, nothing ever runs; and the default
delay is the 200ms `DEBOUNCE_DELAY`. -/
theorem c6_debounce_once :
    (∀ (calls : List (String × SearchOptions)) (h : calls ≠ []),
      debRun none (calls.map (fun p => DebEvent.call p.1 p.2) ++ [DebEvent.fire])
        = (none, [calls.getLast h])
      ∧ debRun none (calls.map (fun p => DebEvent.call p.1 p.2) ++ [DebEvent.cancel])
        = (none, []))
    ∧ effDelay {} = 200 ∧ DEBOUNCE_DELAY = 200 := by
  refine ⟨fun calls h => ?_, rfl, rfl⟩
  match calls with
  | c :: rest =>
    constructor
    · rw [debRun_append, debRun_calls c rest none]
      simp [debRun, debStep]
    · rw [debRun_append, debRun_calls c rest none]
      simp [debRun, debStep]

/-- Witness for C6: two rapid calls, then the timer fires; only the
second call's arguments reach the callback. -/
theorem c6_witness :
    debRun none
      ([("a", { limit := some 5 }), ("b", {})].map (fun p => DebEvent.call p.1 p.2)
        ++ [DebEvent.fire])
      = (none, [("b", ({} : SearchOptions))]) := by
  have h := (c6_debounce_once.1 [("a", { limit := some 5 }), ("b", {})]
    (List.cons_ne_nil _ _)).1
  rw [h]
  rfl

/-! ## Claim C10 -/

/-- C10: searching mutates no original catalog record: the score is
recorded only on the index's wrapper entries, whose `original` references
are untouched, and the returned sequences consist of original records
referenced by the index (the `Track` and `Album` record types carry no
score field at all, so no returned record can acquire one). -/
theorem c10_search_frame :
    ∀ (idx : SearchIndex) (query : String) (o : SearchOptions),
      (indexAfterSearch idx query).tracks.map TrackEntry.original
          = idx.tracks.map TrackEntry.original
      ∧ (indexAfterSearch idx query).albums.map AlbumEntry.original
          = idx.albums.map AlbumEntry.original
      ∧ (∀ t, t ∈ (search (some idx) query o).tracks
          → t ∈ idx.tracks.map TrackEntry.original)
      ∧ (∀ al, al ∈ (search (some idx) query o).albums
          → al ∈ idx.albums.map AlbumEntry.original) := by
  intro idx query o
  refine ⟨?_, ?_, ?_, ?_⟩
  · unfold indexAfterSearch
    by_cases h : jsTrim (jsLower query) = ""
    · simp [h]
    · simp only [if_neg h, List.map_map]
      refine List.map_congr_left ?_
      intro e _
      simp only [Function.comp]
      split
      · rfl
      · rfl
  · unfold indexAfterSearch
    by_cases h : jsTrim (jsLower query) = ""
    · simp [h]
    · simp only [if_neg h, List.map_map]
      refine List.map_congr_left ?_
      intro e _
      simp only [Function.comp]
      split
      · rfl
      · rfl
  · intro t ht
    by_cases h : jsTrim (jsLower query) = ""
    · simp [search, h, emptyResults] at ht
    · simp only [search, if_neg h] at ht
      rcases List.mem_map.mp ht with ⟨e, he, rfl⟩
      have h1 : e ∈ trackMatchesSorted idx (jsTrim (jsLower query)) :=
        List.mem_of_mem_take he
      have h2 : e ∈ idx.tracks.filter (trackMatchPred (jsTrim (jsLower query))) :=
        (sortDesc_perm _ _).mem_iff.mp h1
      exact List.mem_map_of_mem _ (List.mem_of_mem_filter h2)
  · intro al hal
    by_cases h : jsTrim (jsLower query) = ""
    · simp [search, h, emptyResults] at hal
    · simp only [search, if_neg h] at hal
      rcases List.mem_map.mp hal with ⟨e, he, rfl⟩
      have h1 : e ∈ albumMatchesSorted idx (jsTrim (jsLower query)) :=
        List.mem_of_mem_take he
      have h2 : e ∈ idx.albums.filter (albumMatchPred (jsTrim (jsLower query))) :=
        (sortDesc_perm _ _).mem_iff.mp h1
      exact List.mem_map_of_mem _ (List.mem_of_mem_filter h2)

/-- Witness for C10: the track returned by the scenario search is the
original catalog record held by the index. -/
theorem c10_witness :
    tJane ∈ (buildIndex cJane).tracks.map TrackEntry.original :=
  (c10_search_frame (buildIndex cJane) "mid" {}).2.2.1 tJane (by decide)

/-! ## Helper lemmas about first-encounter deduplication -/

theorem firstEncounter_cons (a : String) (rest : List String) :
    firstEncounter (a :: rest) = a :: firstEncounter (rest.filter (fun b => b ≠ a)) := by
  rw [firstEncounter]

theorem mem_firstEncounter (x : String) :
    ∀ l : List String, x ∈ firstEncounter l ↔ x ∈ l := by
  intro l
  induction l using firstEncounter.induct with
  | case1 => simp [firstEncounter]
  | case2 a rest ih =>
    rw [firstEncounter_cons, List.mem_cons, List.mem_cons, ih]
    by_cases hx : x = a
    · simp [hx]
    · simp [hx, List.mem_filter]

theorem nodup_firstEncounter : ∀ l : List String, (firstEncounter l).Nodup := by
  intro l
  induction l using firstEncounter.induct with
  | case1 => simp [firstEncounter]
  | case2 a rest ih =>
    rw [firstEncounter_cons]
    refine List.nodup_cons.mpr ⟨?_, ih⟩
    intro hmem
    have hm := (mem_firstEncounter a _).mp hmem
    simp [List.mem_filter] at hm

theorem foldl_addArtist (l : List String) :
    ∀ acc : List String,
      l.foldl addArtist acc = acc ++ firstEncounter (l.filter (fun b => b ∉ acc)) := by
  induction l with
  | nil => intro acc; simp [firstEncounter]
  | cons a rest ih =>
    intro acc
    rw [List.foldl_cons]
    by_cases h : a ∈ acc
    · rw [show addArtist acc a = acc from by simp [addArtist, h]]
      rw [ih acc]
      have hfc : (a :: rest).filter (fun b => decide (b ∉ acc))
          = rest.filter (fun b => decide (b ∉ acc)) := by
        simp [List.filter_cons, h]
      rw [hfc]
    · rw [show addArtist acc a = acc ++ [a] from by simp [addArtist, h]]
      rw [ih (acc ++ [a])]
      have hfa : (a :: rest).filter (fun b => decide (b ∉ acc))
          = a :: rest.filter (fun b => decide (b ∉ acc)) := by
        simp [List.filter_cons, h]
      rw [hfa, firstEncounter_cons]
      have hff : rest.filter (fun b => decide (b ∉ acc ++ [a]))
          = (rest.filter (fun b => decide (b ∉ acc))).filter (fun b => decide (b ≠ a)) := by
        rw [List.filter_filter]
        refine List.filter_congr ?_
        intro b _
        by_cases hb1 : b ∈ acc <;> by_cases hb2 : b = a <;>
          simp [hb1, hb2, List.mem_append]
      rw [hff]
      simp [List.append_assoc]

/-! ## Claim C5 -/

/-- C5: `buildIndex` produces lower-cased projections of the tracks and
albums sequences (a missing or non-array field acting as empty), each
entry retaining its original record and carrying no score yet, and an
artists sequence listing the artist names in first-encounter order across
tracks then albums, duplicates collapsed. -/
theorem c5_buildIndex_shape :
    (∀ c : Catalog,
      (buildIndex c).tracks.map TrackEntry.original = c.tracks.getD []
      ∧ (buildIndex c).albums.map AlbumEntry.original = c.albums.getD []
      ∧ (∀ e, e ∈ (buildIndex c).tracks →
          e.id = e.original.id
          ∧ e.title = jsLower e.original.title
          ∧ e.artist = jsLower e.original.artist
          ∧ e.album = jsLower (e.original.album.getD "")
          ∧ e.score = none)
      ∧ (∀ e, e ∈ (buildIndex c).albums →
          e.id = e.original.id
          ∧ e.title = jsLower e.original.title
          ∧ e.artist = jsLower e.original.artist
          ∧ e.score = none)
      ∧ (buildIndex c).artists = firstEncounter (allArtists c)
      ∧ (buildIndex c).artists.Nodup
      ∧ (∀ a : String, a ∈ (buildIndex c).artists ↔ a ∈ allArtists c))
    ∧ buildIndex { tracks := none, albums := none }
        = { tracks := [], albums := [], artists := [] } := by
  refine ⟨fun c => ?_, rfl⟩
  have hart : (buildIndex c).artists = firstEncounter (allArtists c) := by
    show (allArtists c).foldl addArtist [] = _
    rw [foldl_addArtist]
    simp
  refine ⟨?_, ?_, ?_, ?_, hart, ?_, ?_⟩
  · show ((c.tracks.getD []).map indexTrack).map TrackEntry.original = _
    rw [List.map_map]
    exact List.map_id _
  · show ((c.albums.getD []).map indexAlbum).map AlbumEntry.original = _
    rw [List.map_map]
    exact List.map_id _
  · intro e he
    rcases List.mem_map.mp he with ⟨t, _, rfl⟩
    exact ⟨rfl, rfl, rfl, rfl, rfl⟩
  · intro e he
    rcases List.mem_map.mp he with ⟨a, _, rfl⟩
    exact ⟨rfl, rfl, rfl, rfl⟩
  · rw [hart]
    exact nodup_firstEncounter _
  · intro a
    rw [hart]
    exact mem_firstEncounter a _

/-- Witness for C5: the index entry of the scenario track carries the
lower-cased title of its original record. -/
theorem c5_witness :
    (indexTrack tJane).title = jsLower ((indexTrack tJane).original.title) :=
  ((c5_buildIndex_shape.1 cJane).2.2.1 (indexTrack tJane) (by decide)).2.1

/-! ## Claim C4 -/

/-- C4 as stated is false: results are truncated to the (default 50)
limit, so in a catalog with 51 equally scored title matches one matching
track is absent from `search(Q).tracks`. -/
theorem c4_counterexample :
    jsIncludes (indexTrack (mkT 50)).title (jsTrim (jsLower "a")) = true
    ∧ indexTrack (mkT 50) ∈ (buildIndex c51).tracks
    ∧ (search (some (buildIndex c51)) "a" {}).tracks.contains (mkT 50) = false
    ∧ (search (some (buildIndex c51)) "a" {}).tracks.length = 50 := by
  decide

/-- C4 amended: every indexed track whose (lower-cased) title contains
the normalized query appears in `search(Q).tracks` provided the number of
matches does not exceed the effective limit; the returned ranking is
descending by score; with equal artist and album fields a title-prefix
match scores strictly above a title-substring match, and therefore never
appears strictly after it in the ranked matches; concretely, of two
tracks that both contain `"run"`, the title-prefix one sorts first even
though the catalog lists it second. -/
theorem c4_title_match_ranking :
    (∀ (idx : SearchIndex) (query : String) (o : SearchOptions) (e : TrackEntry),
      e ∈ idx.tracks →
      jsIncludes e.title (jsTrim (jsLower query)) = true →
      jsTrim (jsLower query) ≠ "" →
      (trackMatchesSorted idx (jsTrim (jsLower query))).length ≤ effLimit o →
      e.original ∈ (search (some idx) query o).tracks)
    ∧ (∀ (idx : SearchIndex) (q : String),
        (trackMatchesSorted idx q).Pairwise
          (fun a b => scoreTrack q b ≤ scoreTrack q a))
    ∧ (∀ (q : String) (a b : TrackEntry),
        a.artist = b.artist → a.album = b.album →
        jsStartsWith a.title q = true →
        jsIncludes b.title q = true → jsStartsWith b.title q = false →
        scoreTrack q b < scoreTrack q a)
    ∧ (∀ (idx : SearchIndex) (q : String) (a b : TrackEntry)
        (l1 l2 l3 : List TrackEntry),
        a.artist = b.artist → a.album = b.album →
        jsStartsWith a.title q = true →
        jsIncludes b.title q = true → jsStartsWith b.title q = false →
        trackMatchesSorted idx q ≠ l1 ++ b :: l2 ++ a :: l3)
    ∧ (search (some (buildIndex cRun)) "run" {}).tracks = [tRunPre, tRunSub] := by
  have hscore : ∀ (q : String) (a b : TrackEntry),
      a.artist = b.artist → a.album = b.album →
      jsStartsWith a.title q = true →
      jsIncludes b.title q = true → jsStartsWith b.title q = false →
      scoreTrack q b < scoreTrack q a := by
    intro q a b hart halb hpa hib hpb
    unfold scoreTrack
    rw [hart, halb, hpa, hpb, hib]
    simp only [if_true, Bool.false_eq_true, if_false]
    apply Int.add_lt_add_right
    apply Int.add_lt_add_right
    norm_num
  have hsorted : ∀ (idx : SearchIndex) (q : String),
      (trackMatchesSorted idx q).Pairwise
        (fun a b => scoreTrack q b ≤ scoreTrack q a) := by
    intro idx q
    exact sortDesc_pairwise (scoreTrack q) (idx.tracks.filter (trackMatchPred q))
  refine ⟨?_, hsorted, hscore, ?_, by decide⟩
  · intro idx query o e he hinc hne hlen
    simp only [search, if_neg hne]
    rw [List.take_of_length_le hlen]
    refine List.mem_map_of_mem _ ?_
    refine (sortDesc_perm _ _).mem_iff.mpr ?_
    exact List.mem_filter.mpr ⟨he, by simp [trackMatchPred, hinc]⟩
  · intro idx q a b l1 l2 l3 hart halb hpa hib hpb heq
    have hp := hsorted idx q
    rw [heq] at hp
    have hle := pairwise_of_split hp
    exact absurd hle (not_le.mpr (hscore q a b hart halb hpa hib hpb))

/-- Witness for C4: in the one-track catalog the title-containing track
is returned by its query. -/
theorem c4_witness :
    (indexTrack tOne).original ∈ (search (some (buildIndex cOne)) "a" {}).tracks :=
  c4_title_match_ranking.1 (buildIndex cOne) "a" {} (indexTrack tOne)
    (by decide) (by decide) (by decide) (by decide)

/-! ## Helper lemmas about escaping and highlighting -/

theorem not_lt_mem_escChar (c : Char) : '<' ∉ escChar c := by
  unfold escChar
  split_ifs with h1 h2 h3
  · decide
  · decide
  · decide
  · intro hmem
    exact h2 (List.mem_singleton.mp hmem).symm

theorem not_lt_mem_escapeHtml (s : String) : '<' ∉ (escapeHtml s).toList := by
  intro hmem
  have hm : '<' ∈ (s.toList.map escChar).flatten := hmem
  rcases List.mem_flatten.mp hm with ⟨chunk, hc, hlt⟩
  rcases List.mem_map.mp hc with ⟨c, _, rfl⟩
  exact not_lt_mem_escChar c hlt

theorem markOcc_count (q : List Char) (hq : q ≠ []) :
    ∀ s : List Char, '<' ∉ s →
      (markOcc q s).count '<' = 2 * countOcc q s := by
  intro s
  induction s using countOcc.induct q with
  | case1 =>
    intro _
    rw [markOcc, countOcc]
    simp [hq]
  | case2 c rest h ih =>
    intro hnotin
    rw [markOcc, countOcc]
    simp only [dif_pos h]
    rw [List.count_append, List.count_append, List.count_append]
    have h1 : openMark.count '<' = 1 := by decide
    have h2 : closeMark.count '<' = 1 := by decide
    have h3 : ((c :: rest).take q.length).count '<' = 0 :=
      List.count_eq_zero.mpr (fun hmem => hnotin (List.mem_of_mem_take hmem))
    have h4 : '<' ∉ (c :: rest).drop q.length :=
      fun hmem => hnotin (List.mem_of_mem_drop hmem)
    rw [h1, h2, h3, ih h4]
    omega
  | case3 c rest h ih =>
    intro hnotin
    rw [markOcc, countOcc]
    simp only [dif_neg h, if_neg hq]
    have hc : ¬((c == '<') = true) := by
      intro hb
      have hcc : c = '<' := by simpa [beq_iff_eq] using hb
      exact hnotin (by rw [hcc]; exact List.mem_cons_self '<' rest)
    have h4 : '<' ∉ rest := fun hmem => hnotin (List.mem_cons_of_mem c hmem)
    rw [List.count_cons, if_neg hc, ih h4]
    omega

theorem markOcc_of_countOcc_zero (q : List Char) (hq : q ≠ []) :
    ∀ s : List Char, countOcc q s = 0 → markOcc q s = s := by
  intro s
  induction s using countOcc.induct q with
  | case1 =>
    intro _
    rw [markOcc]
    simp [hq]
  | case2 c rest h ih =>
    intro h0
    rw [countOcc] at h0
    simp only [dif_pos h] at h0
    omega
  | case3 c rest h ih =>
    intro h0
    rw [countOcc] at h0
    simp only [dif_neg h] at h0
    rw [markOcc]
    simp only [dif_neg h, if_neg hq]
    rw [ih h0]

theorem string_empty_of_toList_nil {s : String} (h : s.toList = []) : s = "" := by
  cases s with
  | mk data =>
    cases h
    rfl

/-! ## Claim C8 -/

/-- C8 as stated is false for text containing an HTML-special character:
`highlight(escapeHtml(text), "")` escapes its argument a second time, so
for `text = "&"` it yields the doubly escaped `"&amp;amp;"` rather than
`escapeHtml("&") = "&amp;"`. -/
theorem c8_counterexample :
    highlight (escapeHtml "&") "" ≠ escapeHtml "&"
    ∧ highlight (escapeHtml "&") "" = "&amp;amp;"
    ∧ escapeHtml "&" = "&amp;" := by decide

/-- C8 amended: `highlight` with the empty query returns exactly the
HTML-escaped text, with no emphasis markers inserted; the stated
idempotence equation holds for text on which escaping is the identity
(no `&`, `<` or `>` characters); and for a query that is non-empty after
trimming, the escaped text contains no `<` of its own, so the returned
string carries exactly one `<mark>`/`</mark>` pair (two `<` characters)
around each case-insensitive occurrence of the trimmed lower-cased query,
and is the escaped text unchanged when there is no occurrence. -/
theorem c8_highlight_marks :
    (∀ text : String, highlight text "" = escapeHtml text)
    ∧ (∀ text : String, escapeHtml text = text →
        highlight (escapeHtml text) "" = escapeHtml text)
    ∧ (∀ (text query : String), jsLower (jsTrim query) ≠ "" →
        (highlight text query).toList.count '<'
          = 2 * countOcc (jsLower (jsTrim query)).toList (escapeHtml text).toList)
    ∧ (∀ (text query : String), jsLower (jsTrim query) ≠ "" →
        countOcc (jsLower (jsTrim query)).toList (escapeHtml text).toList = 0 →
        highlight text query = escapeHtml text) := by
  have hmain : ∀ text : String, highlight text "" = escapeHtml text := by
    intro text
    simp [highlight]
  refine ⟨hmain, fun text h => ?_, fun text query hne => ?_,
    fun text query hne h0 => ?_⟩
  · calc highlight (escapeHtml text) "" = escapeHtml (escapeHtml text) := hmain _
      _ = escapeHtml text := by conv_lhs => rw [h]
  · have hqne : query ≠ "" := fun hq => hne (by rw [hq]; rfl)
    have hq' : (jsLower (jsTrim query)).toList ≠ [] :=
      fun hh => hne (string_empty_of_toList_nil hh)
    unfold highlight
    rw [if_neg hqne]
    exact markOcc_count _ hq' _ (not_lt_mem_escapeHtml text)
  · have hqne : query ≠ "" := fun hq => hne (by rw [hq]; rfl)
    have hq' : (jsLower (jsTrim query)).toList ≠ [] :=
      fun hh => hne (string_empty_of_toList_nil hh)
    unfold highlight
    rw [if_neg hqne]
    show String.mk (markOcc (jsLower (jsTrim query)).toList (escapeHtml text).toList)
        = escapeHtml text
    rw [markOcc_of_countOcc_zero _ hq' _ h0]
    rfl

/-- Witness for C8: highlighting `"b"` inside `"abc"` produces exactly
one marked occurrence, i.e. two `<` characters. -/
theorem c8_witness :
    (highlight "abc" "b").toList.count '<'
      = 2 * countOcc (jsLower (jsTrim "b")).toList (escapeHtml "abc").toList :=
  c8_highlight_marks.2.2.1 "abc" "b" (by decide)

end Neutra
